import Mathlib

/-!
Verification of the `cyclone` particle-physics core (src/src/vector.rs,
src/src/particle.rs) against its specification. The Rust `Real` type
(an alias for f64) is idealized as the mathematical reals; `f64::powf`
is modelled by real exponentiation `Real.rpow`, and `f64::recip` (whose
value at +0.0 is +infinity) is modelled into the extended reals `EReal`.
-/

namespace Cyclone

/-- Embedding of `Vector3 = Vector<Real, 3>` from src/src/vector.rs: a
fixed-length 3-component tuple of reals. -/
@[ext]
structure Vector3 where
  x : ℝ
  y : ℝ
  z : ℝ

/-- Elementwise addition, from the `Add` impl in src/src/vector.rs. -/
def Vector3.add (a b : Vector3) : Vector3 :=
  ⟨a.x + b.x, a.y + b.y, a.z + b.z⟩

/-- Scalar multiplication, from the `Mul<T>` impl in src/src/vector.rs:
each component is multiplied on the right by the scalar. -/
def Vector3.smul (a : Vector3) (s : ℝ) : Vector3 :=
  ⟨a.x * s, a.y * s, a.z * s⟩

/-- `Vector::zero`, which is the all-zero default value. -/
def Vector3.zero : Vector3 := ⟨0, 0, 0⟩

/-- `Vector::magnitude_squared`: the fold
`elements.iter().fold(0, |acc, e| acc + e.powi(2))`, kept in the
source's accumulation order. -/
def Vector3.magnitude_squared (v : Vector3) : ℝ :=
  ((0 + v.x ^ 2) + v.y ^ 2) + v.z ^ 2

/-- `Vector::magnitude`: square root of the squared magnitude. -/
noncomputable def Vector3.magnitude (v : Vector3) : ℝ :=
  Real.sqrt v.magnitude_squared

/-- `Vector::normalize`: scales by the reciprocal length when the length
is positive, otherwise returns the receiver unchanged. -/
noncomputable def Vector3.normalize (v : Vector3) : Vector3 :=
  if v.magnitude > 0 then v.smul v.magnitude⁻¹ else v

/-- `Vector::dot`: the fold
`zip(rhs).fold(0, |acc, (a, b)| (a * b) + acc)`, kept in the source's
accumulation order (product added on the left of the accumulator). -/
def Vector3.dot (a b : Vector3) : ℝ :=
  (a.z * b.z) + ((a.y * b.y) + ((a.x * b.x) + 0))

/-- `Vector3::cross`, the right-handed cross product. -/
def Vector3.cross (a b : Vector3) : Vector3 :=
  ⟨a.y * b.z - a.z * b.y, a.z * b.x - a.x * b.z, a.x * b.y - a.y * b.x⟩

/-- Embedding of `Particle` from src/src/particle.rs, fields in source
order. -/
structure Particle where
  position : Vector3
  velocity : Vector3
  acceleration : Vector3
  damping : ℝ
  inverse_mass : ℝ
  force_accumulator : Vector3

/-- `Particle::mass`, which is `self.inverse_mass.recip()`. The f64
reciprocal of +0.0 is +infinity, so the embedding lands in the extended
reals: the zero case is the embedding of IEEE reciprocal at zero, not an
extra policy of the source. -/
noncomputable def Particle.mass (p : Particle) : EReal :=
  if p.inverse_mass = 0 then ⊤ else ((p.inverse_mass⁻¹ : ℝ) : EReal)

/-- `Particle::has_infinite_mass`: exact comparison of the inverse mass
with zero. -/
def Particle.has_infinite_mass (p : Particle) : Prop :=
  p.inverse_mass = 0

/-- `Particle::add_force`: adds the force into the accumulator. -/
def Particle.add_force (p : Particle) (force : Vector3) : Particle :=
  { p with force_accumulator := p.force_accumulator.add force }

/-- `Particle::integrate`: guarded Newton-Euler step. If
`inverse_mass <= 0 && duration > 0` the call returns with no change;
otherwise position is advanced by the old velocity, velocity by the
acceleration then damped by `damping.powf(duration)`, and the force
accumulator is cleared. -/
noncomputable def Particle.integrate (p : Particle) (duration : ℝ) : Particle :=
  if p.inverse_mass ≤ 0 ∧ 0 < duration then p
  else
    { p with
      position := p.position.add (p.velocity.smul duration),
      velocity := (p.velocity.add (p.acceleration.smul duration)).smul
        (p.damping ^ duration),
      force_accumulator := Vector3.zero }

/-- Helper: the integrator when the infinite-mass guard does not fire. -/
theorem integrate_of_not_guard (p : Particle) (d : ℝ)
    (h : ¬(p.inverse_mass ≤ 0 ∧ 0 < d)) :
    p.integrate d =
      { p with
        position := p.position.add (p.velocity.smul d),
        velocity := (p.velocity.add (p.acceleration.smul d)).smul
          (p.damping ^ d),
        force_accumulator := Vector3.zero } := by
  simp only [Particle.integrate, if_neg h]

/-- Helper: the integrator when the infinite-mass guard fires. -/
theorem integrate_of_guard (p : Particle) (d : ℝ)
    (h0 : p.inverse_mass ≤ 0) (hd : 0 < d) :
    p.integrate d = p := by
  simp only [Particle.integrate, if_pos (And.intro h0 hd)]

/-- Claim C7: for every vector v, `v.dot(v)` equals
`v.magnitude_squared()` exactly, even though the two are computed by
separate fold implementations. -/
theorem dot_self_eq_magnitude_squared (v : Vector3) :
    v.dot v = v.magnitude_squared := by
  unfold Vector3.dot Vector3.magnitude_squared
  ring

/-- Claim C6: `normalize` on a vector of exactly zero magnitude returns
the original vector unchanged, and in particular the zero vector
normalizes to itself exactly. -/
theorem normalize_zero_magnitude (v : Vector3) (h : v.magnitude = 0) :
    v.normalize = v ∧ Vector3.zero.normalize = Vector3.zero := by
  have hz : Vector3.zero.magnitude = 0 := by
    unfold Vector3.magnitude Vector3.magnitude_squared Vector3.zero
    norm_num
  constructor
  · unfold Vector3.normalize
    rw [if_neg]
    rw [h]
    exact lt_irrefl 0
  · unfold Vector3.normalize
    rw [if_neg]
    rw [hz]
    exact lt_irrefl 0

/-- Witness for C6 at the zero vector. -/
theorem normalize_zero_magnitude_witness :
    Vector3.zero.magnitude = 0 ∧
      Vector3.zero.normalize = Vector3.zero := by
  have hz : Vector3.zero.magnitude = 0 := by
    unfold Vector3.magnitude Vector3.magnitude_squared Vector3.zero
    norm_num
  exact ⟨hz, (normalize_zero_magnitude Vector3.zero hz).2⟩

/-- Claim C1: for a particle with positive inverse mass, `integrate d`
advances position with the pre-update velocity, sets the new velocity to
the damped accelerated velocity, clears the force accumulator, and
leaves acceleration, damping and inverse mass unchanged. -/
theorem integrate_positive_inverse_mass (p : Particle) (d : ℝ)
    (h : 0 < p.inverse_mass) :
    (p.integrate d).position.x = p.position.x + p.velocity.x * d ∧
    (p.integrate d).position.y = p.position.y + p.velocity.y * d ∧
    (p.integrate d).position.z = p.position.z + p.velocity.z * d ∧
    (p.integrate d).velocity.x
      = (p.velocity.x + p.acceleration.x * d) * p.damping ^ d ∧
    (p.integrate d).velocity.y
      = (p.velocity.y + p.acceleration.y * d) * p.damping ^ d ∧
    (p.integrate d).velocity.z
      = (p.velocity.z + p.acceleration.z * d) * p.damping ^ d ∧
    (p.integrate d).force_accumulator = Vector3.zero ∧
    (p.integrate d).acceleration = p.acceleration ∧
    (p.integrate d).damping = p.damping ∧
    (p.integrate d).inverse_mass = p.inverse_mass := by
  have hg : ¬(p.inverse_mass ≤ 0 ∧ 0 < d) := fun hc => absurd h (not_lt.mpr hc.1)
  rw [integrate_of_not_guard p d hg]
  simp [Vector3.add, Vector3.smul]

/-- Witness for C1 at a concrete particle and duration. -/
theorem integrate_positive_inverse_mass_witness :
    (0 : ℝ) < 1 ∧
    (((Particle.mk ⟨1, 2, 3⟩ ⟨4, 5, 6⟩ ⟨7, 8, 9⟩ 1 1 ⟨10, 11, 12⟩).integrate
        2).position.x
      = (Particle.mk ⟨1, 2, 3⟩ ⟨4, 5, 6⟩ ⟨7, 8, 9⟩ 1 1
          ⟨10, 11, 12⟩).position.x
        + (Particle.mk ⟨1, 2, 3⟩ ⟨4, 5, 6⟩ ⟨7, 8, 9⟩ 1 1
            ⟨10, 11, 12⟩).velocity.x * 2) := by
  refine ⟨by norm_num, ?_⟩
  exact (integrate_positive_inverse_mass
    (Particle.mk ⟨1, 2, 3⟩ ⟨4, 5, 6⟩ ⟨7, 8, 9⟩ 1 1 ⟨10, 11, 12⟩) 2
    (by norm_num : (0 : ℝ) < 1)).1

/-- Claim C2: for a particle with inverse mass zero and a positive
duration, `integrate` leaves the whole particle unchanged; in
particular the force accumulator is not cleared. -/
theorem integrate_infinite_mass_noop (p : Particle) (d : ℝ)
    (h0 : p.inverse_mass = 0) (hd : 0 < d) :
    p.integrate d = p :=
  integrate_of_guard p d h0.le hd

/-- Witness for C2: an infinite-mass particle with a nonzero force
accumulator is untouched by integrate(1). -/
theorem integrate_infinite_mass_noop_witness :
    (Particle.mk ⟨1, 2, 3⟩ ⟨4, 5, 6⟩ ⟨7, 8, 9⟩ 0.99 0
        ⟨10, 11, 12⟩).inverse_mass = 0 ∧
    (0 : ℝ) < 1 ∧
    (Particle.mk ⟨1, 2, 3⟩ ⟨4, 5, 6⟩ ⟨7, 8, 9⟩ 0.99 0
        ⟨10, 11, 12⟩).integrate 1
      = Particle.mk ⟨1, 2, 3⟩ ⟨4, 5, 6⟩ ⟨7, 8, 9⟩ 0.99 0 ⟨10, 11, 12⟩ := by
  refine ⟨rfl, by norm_num, ?_⟩
  exact integrate_infinite_mass_noop
    (Particle.mk ⟨1, 2, 3⟩ ⟨4, 5, 6⟩ ⟨7, 8, 9⟩ 0.99 0 ⟨10, 11, 12⟩) 1
    rfl (by norm_num)

/-- Claim C4: the force accumulator never influences the position or
velocity computed by `integrate`: two particles differing only in the
accumulator yield identical position and velocity for any duration. -/
theorem integrate_accumulator_noninterference (p q : Particle) (d : ℝ)
    (hpos : p.position = q.position) (hvel : p.velocity = q.velocity)
    (hacc : p.acceleration = q.acceleration)
    (hdamp : p.damping = q.damping)
    (hm : p.inverse_mass = q.inverse_mass) :
    (p.integrate d).position = (q.integrate d).position ∧
    (p.integrate d).velocity = (q.integrate d).velocity := by
  by_cases hg : q.inverse_mass ≤ 0 ∧ 0 < d
  · have hg' : p.inverse_mass ≤ 0 ∧ 0 < d := by rw [hm]; exact hg
    rw [integrate_of_guard p d hg'.1 hg'.2, integrate_of_guard q d hg.1 hg.2]
    exact ⟨hpos, hvel⟩
  · have hg' : ¬(p.inverse_mass ≤ 0 ∧ 0 < d) := by rw [hm]; exact hg
    rw [integrate_of_not_guard p d hg', integrate_of_not_guard q d hg]
    rw [hpos, hvel, hacc, hdamp]
    exact ⟨rfl, rfl⟩

/-- Witness for C4: two particles differing only in the accumulator. -/
theorem integrate_accumulator_noninterference_witness :
    ((Particle.mk ⟨1, 2, 3⟩ ⟨4, 5, 6⟩ ⟨7, 8, 9⟩ 0.5 2
        ⟨100, 200, 300⟩).integrate 3).position
      = ((Particle.mk ⟨1, 2, 3⟩ ⟨4, 5, 6⟩ ⟨7, 8, 9⟩ 0.5 2
          ⟨0, 0, 0⟩).integrate 3).position ∧
    ((Particle.mk ⟨1, 2, 3⟩ ⟨4, 5, 6⟩ ⟨7, 8, 9⟩ 0.5 2
        ⟨100, 200, 300⟩).integrate 3).velocity
      = ((Particle.mk ⟨1, 2, 3⟩ ⟨4, 5, 6⟩ ⟨7, 8, 9⟩ 0.5 2
          ⟨0, 0, 0⟩).integrate 3).velocity :=
  integrate_accumulator_noninterference
    (Particle.mk ⟨1, 2, 3⟩ ⟨4, 5, 6⟩ ⟨7, 8, 9⟩ 0.5 2 ⟨100, 200, 300⟩)
    (Particle.mk ⟨1, 2, 3⟩ ⟨4, 5, 6⟩ ⟨7, 8, 9⟩ 0.5 2 ⟨0, 0, 0⟩)
    3 rfl rfl rfl rfl rfl

/-- Claim C5: for every particle, `integrate 0` leaves position and
velocity unchanged but still clears the force accumulator, because the
guard fires only for positive durations. -/
theorem integrate_zero_duration (p : Particle) :
    (p.integrate 0).position = p.position ∧
    (p.integrate 0).velocity = p.velocity ∧
    (p.integrate 0).force_accumulator = Vector3.zero := by
  have hg : ¬(p.inverse_mass ≤ 0 ∧ 0 < (0 : ℝ)) := fun hc => lt_irrefl 0 hc.2
  rw [integrate_of_not_guard p 0 hg]
  refine ⟨?_, ?_, rfl⟩
  · ext <;> simp [Vector3.add, Vector3.smul]
  · rw [Real.rpow_zero]
    ext <;> simp [Vector3.add, Vector3.smul]

/-- The particle of the reference scenario in the `integrate` test of
src/src/particle.rs. -/
def referenceParticle : Particle :=
  Particle.mk ⟨0, 0, 0⟩ ⟨0, 0, 35⟩ ⟨0, -1, 0⟩ 0.99 0.5 ⟨0, 0, 0⟩

/-- Claim C3: the reference particle (inverse mass 0.5, velocity
(0,0,35), acceleration (0,-1,0), damping 0.99, zero position and
accumulator), integrated once for 4 seconds, ends at position exactly
(0,0,140), velocity within 1e-4 of (0, -3.842384, 33.62086), and a
cleared force accumulator. -/
theorem integrate_reference_case :
    (referenceParticle.integrate 4).position = ⟨0, 0, 140⟩ ∧
    (referenceParticle.integrate 4).velocity.x = 0 ∧
    |(referenceParticle.integrate 4).velocity.y - (-3.842384)| < 0.0001 ∧
    |(referenceParticle.integrate 4).velocity.z - 33.62086| < 0.0001 ∧
    (referenceParticle.integrate 4).force_accumulator = Vector3.zero := by
  have hpow : ((0.99 : ℝ) ^ (4 : ℝ)) = 0.96059601 := by
    rw [show (4 : ℝ) = ((4 : ℕ) : ℝ) by norm_num, Real.rpow_natCast]
    norm_num
  have hg : ¬((referenceParticle.inverse_mass ≤ 0) ∧ (0 : ℝ) < 4) := by
    unfold referenceParticle
    norm_num
  rw [integrate_of_not_guard referenceParticle 4 hg]
  unfold referenceParticle
  simp only [Vector3.add, Vector3.smul]
  rw [hpow]
  refine ⟨by ext <;> norm_num, by norm_num,
    by rw [abs_lt]; constructor <;> norm_num,
    by rw [abs_lt]; constructor <;> norm_num, by trivial⟩

/-- Claim C8: `mass()` is exactly the reciprocal of the inverse mass
when the latter is nonzero, and is positive infinity when the inverse
mass is zero, as ordinary IEEE reciprocal arithmetic gives. -/
theorem mass_reciprocal (p : Particle) :
    (p.inverse_mass ≠ 0 → p.mass = ((1 / p.inverse_mass : ℝ) : EReal)) ∧
    (p.inverse_mass = 0 → p.mass = ⊤) := by
  constructor
  · intro h
    unfold Particle.mass
    rw [if_neg h, one_div]
  · intro h
    unfold Particle.mass
    rw [if_pos h]

/-- Witness for C8: inverse mass 0.5 gives mass 2, and inverse mass 0
gives positive infinity. -/
theorem mass_reciprocal_witness :
    (Particle.mk ⟨0, 0, 0⟩ ⟨0, 0, 0⟩ ⟨0, 0, 0⟩ 1 0.5 ⟨0, 0, 0⟩).mass
      = ((2 : ℝ) : EReal) ∧
    (Particle.mk ⟨0, 0, 0⟩ ⟨0, 0, 0⟩ ⟨0, 0, 0⟩ 1 0 ⟨0, 0, 0⟩).mass = ⊤ := by
  constructor
  · have h := (mass_reciprocal
      (Particle.mk ⟨0, 0, 0⟩ ⟨0, 0, 0⟩ ⟨0, 0, 0⟩ 1 0.5 ⟨0, 0, 0⟩)).1
      (by norm_num : (0.5 : ℝ) ≠ 0)
    rw [h]
    norm_num
  · exact (mass_reciprocal
      (Particle.mk ⟨0, 0, 0⟩ ⟨0, 0, 0⟩ ⟨0, 0, 0⟩ 1 0 ⟨0, 0, 0⟩)).2 rfl

/-- Claim C9: an infinite-mass particle is not frozen for non-positive
durations: with inverse mass zero and duration d <= 0, `integrate`
performs the full position, velocity and accumulator update, because
the guard also requires a positive duration. -/
theorem integrate_infinite_mass_nonpositive_duration (p : Particle)
    (d : ℝ) (h0 : p.inverse_mass = 0) (hd : d ≤ 0) :
    (p.integrate d).position.x = p.position.x + p.velocity.x * d ∧
    (p.integrate d).position.y = p.position.y + p.velocity.y * d ∧
    (p.integrate d).position.z = p.position.z + p.velocity.z * d ∧
    (p.integrate d).velocity.x
      = (p.velocity.x + p.acceleration.x * d) * p.damping ^ d ∧
    (p.integrate d).velocity.y
      = (p.velocity.y + p.acceleration.y * d) * p.damping ^ d ∧
    (p.integrate d).velocity.z
      = (p.velocity.z + p.acceleration.z * d) * p.damping ^ d ∧
    (p.integrate d).force_accumulator = Vector3.zero := by
  have hg : ¬(p.inverse_mass ≤ 0 ∧ 0 < d) :=
    fun hc => absurd hd (not_le.mpr hc.2)
  rw [integrate_of_not_guard p d hg]
  simp [Vector3.add, Vector3.smul]

/-- Witness for C9: a moving infinite-mass particle integrated with a
negative duration has its position moved backward along its velocity. -/
theorem integrate_infinite_mass_nonpositive_duration_witness :
    (Particle.mk ⟨0, 0, 0⟩ ⟨7, 0, 0⟩ ⟨0, 0, 0⟩ 1 0
        ⟨5, 5, 5⟩).inverse_mass = 0 ∧
    (-1 : ℝ) ≤ 0 ∧
    ((Particle.mk ⟨0, 0, 0⟩ ⟨7, 0, 0⟩ ⟨0, 0, 0⟩ 1 0
        ⟨5, 5, 5⟩).integrate (-1)).position.x
      = (Particle.mk ⟨0, 0, 0⟩ ⟨7, 0, 0⟩ ⟨0, 0, 0⟩ 1 0
          ⟨5, 5, 5⟩).position.x
        + (Particle.mk ⟨0, 0, 0⟩ ⟨7, 0, 0⟩ ⟨0, 0, 0⟩ 1 0
            ⟨5, 5, 5⟩).velocity.x * (-1) := by
  refine ⟨rfl, by norm_num, ?_⟩
  exact (integrate_infinite_mass_nonpositive_duration
    (Particle.mk ⟨0, 0, 0⟩ ⟨7, 0, 0⟩ ⟨0, 0, 0⟩ 1 0 ⟨5, 5, 5⟩) (-1)
    rfl (by norm_num)).1

/-- Claim C10: a particle with negative inverse mass is treated as
frozen by `integrate` for every positive duration (the guard tests
inverse mass <= 0), yet `has_infinite_mass` is false for it, since that
predicate compares with zero exactly. -/
theorem negative_inverse_mass_frozen_but_not_infinite (p : Particle)
    (h : p.inverse_mass < 0) :
    (∀ d : ℝ, 0 < d → p.integrate d = p) ∧ ¬p.has_infinite_mass := by
  constructor
  · intro d hd
    exact integrate_of_guard p d h.le hd
  · intro he
    exact absurd he h.ne

/-- Witness for C10 at inverse mass -1 and duration 1. -/
theorem negative_inverse_mass_frozen_but_not_infinite_witness :
    (Particle.mk ⟨1, 1, 1⟩ ⟨2, 2, 2⟩ ⟨3, 3, 3⟩ 0.5 (-1)
        ⟨4, 4, 4⟩).inverse_mass < 0 ∧
    (Particle.mk ⟨1, 1, 1⟩ ⟨2, 2, 2⟩ ⟨3, 3, 3⟩ 0.5 (-1)
        ⟨4, 4, 4⟩).integrate 1
      = Particle.mk ⟨1, 1, 1⟩ ⟨2, 2, 2⟩ ⟨3, 3, 3⟩ 0.5 (-1) ⟨4, 4, 4⟩ ∧
    ¬(Particle.mk ⟨1, 1, 1⟩ ⟨2, 2, 2⟩ ⟨3, 3, 3⟩ 0.5 (-1)
        ⟨4, 4, 4⟩).has_infinite_mass := by
  have h := negative_inverse_mass_frozen_but_not_infinite
    (Particle.mk ⟨1, 1, 1⟩ ⟨2, 2, 2⟩ ⟨3, 3, 3⟩ 0.5 (-1) ⟨4, 4, 4⟩)
    (by norm_num : (-1 : ℝ) < 0)
  exact ⟨by norm_num, h.1 1 (by norm_num), h.2⟩

end Cyclone
